import Mathlib

/-!
Shallow embedding of the qcc::Mutex class of the AllJoyn-Pi-Server
repository (src/inc/qcc/Mutex.h).  The header declares the interface and
the data members; the member-function bodies live in a platform source
file that is not part of the snapshot, so the operational behavior of
each member function is modelled from the spec, as stated in the doc
comment of each definition.  The member list, the MUTEX_CONTEXT macro and
the status codes named by the header are translated from the header
itself.
-/

namespace AJ

/-- Status codes from alljoyn/Status.h that the Mutex interface can name.
The doc comments of Lock and Unlock in src/inc/qcc/Mutex.h mention ER_OK
and ER_OS_ERROR; further codes of the status taxonomy are included so
that a statement about which codes these operations may return is not
vacuous. -/
inductive QStatus where
  | ER_OK
  | ER_FAIL
  | ER_OS_ERROR
  | ER_INIT_FAILED
deriving DecidableEq

/-- A diagnostic acquisition context: the source file name and line number
pair passed through the MUTEX_CONTEXT macro to Lock and Unlock. -/
structure Ctx where
  file : String
  line : Nat
deriving DecidableEq

/-- Modelled from the spec: the abstract state of one Mutex instance (the
bodies in Mutex.cc are missing from the snapshot).  `isInitialized`,
`line` and `file` are the data members declared in src/inc/qcc/Mutex.h
lines 158-182; `holder` abstracts which thread currently owns the native
lock (`none` means unlocked); `handle` is the identity of the native
handle owned by the instance. -/
structure MutexState where
  isInitialized : Bool
  holder : Option Nat
  line : Nat
  file : Option String
  handle : Nat
deriving DecidableEq

/-- Modelled from the spec: the Mutex() constructor fully initializes the
native handle (identity `h`) and leaves the mutex unlocked, with the
diagnostic fields cleared. -/
def mkMutex (h : Nat) : MutexState :=
  { isInitialized := true, holder := none, line := 0, file := none, handle := h }

/-- Modelled from the spec: Mutex::Init constructs the native handle; `ok`
models whether the OS-level construction succeeds, and the isInitialized
flag is set exactly when it does. -/
def Init (ok : Bool) (h : Nat) : MutexState :=
  if ok then mkMutex h
  else { isInitialized := false, holder := none, line := 0, file := none, handle := h }

/-- Modelled from the spec: the completion of a `Mutex::Lock` call by
thread `t`.  Lock blocks while another thread holds the lock, so the step
that completes the call happens only on a free mutex (the interleaving
model below enforces this).  `osOk` models whether the underlying OS call
succeeds; `ctx` is the optional MUTEX_CONTEXT diagnostic argument pair,
written into the `file`/`line` members only in the successful branch,
i.e. only once the lock has been acquired. -/
def Lock (t : Nat) (osOk : Bool) (ctx : Option Ctx) (s : MutexState) :
    QStatus × MutexState :=
  if osOk then
    match ctx with
    | some c => (QStatus.ER_OK, { s with holder := some t, file := some c.file, line := c.line })
    | none => (QStatus.ER_OK, { s with holder := some t })
  else
    (QStatus.ER_OS_ERROR, s)

/-- Modelled from the spec: `Mutex::TryLock` by thread `t` acquires the
lock and returns true when the mutex is free, and returns false
immediately, changing nothing (in particular not the diagnostic fields),
when the lock is already held. -/
def TryLock (t : Nat) (s : MutexState) : Bool × MutexState :=
  if s.holder = none then (true, { s with holder := some t }) else (false, s)

/-- Modelled from the spec: `Mutex::Unlock` by thread `t`.  The calling
thread must hold the lock; calling Unlock otherwise is a contract
violation treated as undefined behavior, modelled as `none` — no status
value is ever produced for it.  The optional diagnostic context is used
only for logging and does not affect the state.  `osOk` models whether
the platform release call succeeds. -/
def Unlock (t : Nat) (osOk : Bool) (ctx : Option Ctx) (s : MutexState) :
    Option (QStatus × MutexState) :=
  if s.holder = some t then
    if osOk then some (QStatus.ER_OK, { s with holder := none })
    else some (QStatus.ER_OS_ERROR, s)
  else none

/-- Modelled from the spec: the Mutex copy constructor creates a brand new
mutex: a freshly constructed native handle of identity `h`, unlocked,
taking nothing from the source object. -/
def copyConstruct (source : MutexState) (h : Nat) : MutexState :=
  mkMutex h

/-- Modelled from the spec: Mutex assignment likewise leaves the target a
freshly initialized, unlocked mutex and takes nothing from the source. -/
def assignFrom (target source : MutexState) (h : Nat) : MutexState :=
  mkMutex h

/-- Modelled from the spec: `Mutex::AssertOwnedByCurrentThread` called by
thread `t` returns normally (`some ()`, carrying no value) when `t` holds
the lock, and signals a fatal assertion failure — modelled as `none`,
never a returned value — otherwise. -/
def AssertOwnedByCurrentThread (t : Nat) (s : MutexState) : Option Unit :=
  if s.holder = some t then some () else none

/-- Modelled from the spec: the destructor.  `some b` means normal
completion where `b` records whether the native destroy call was
performed — it is guarded by the isInitialized flag; `none` models the
contract violation of destroying a mutex that is still held. -/
def destructor (s : MutexState) : Option Bool :=
  if s.isInitialized then
    if s.holder = none then some true else none
  else some false

/-- Modelled from the spec: the lock path guarded by the isInitialized
flag; operating on an uninitialized handle is undefined behavior,
modelled as `none`. -/
def LockGuarded (t : Nat) (osOk : Bool) (ctx : Option Ctx) (s : MutexState) :
    Option (QStatus × MutexState) :=
  if s.isInitialized then some (Lock t osOk ctx s) else none

/-- Modelled from the spec: the unlock path guarded by the isInitialized
flag; operating on an uninitialized handle is undefined behavior,
modelled as `none`. -/
def UnlockGuarded (t : Nat) (osOk : Bool) (ctx : Option Ctx) (s : MutexState) :
    Option (QStatus × MutexState) :=
  if s.isInitialized then Unlock t osOk ctx s else none

/-- From src/inc/qcc/Mutex.h lines 42-46: MUTEX_CONTEXT expands to the
pair __FILE__, __LINE__ when NDEBUG is not defined, and to nothing — so
that the context-free overloads of Lock and Unlock are selected — when
NDEBUG is defined (release builds). -/
def MUTEX_CONTEXT (ndebug : Bool) (f : String) (l : Nat) : Option Ctx :=
  if ndebug then none else some { file := f, line := l }

/-- The platform-family selection of src/inc/qcc/Mutex.h lines 29-31 and
150-156. -/
inductive Platform where
  | posix
  | windows
deriving DecidableEq

/-- The data members declared in the body of class Mutex,
src/inc/qcc/Mutex.h lines 148-194. -/
inductive Member where
  | nativeMutex (p : Platform)
  | isInitializedMember
  | lineMember
  | fileMember
  | mutexInternalMember
deriving DecidableEq

/-- From src/inc/qcc/Mutex.h lines 148-194: the list of data members of
class Mutex as a function of the build configuration.  The only
preprocessor conditional inside the class body (lines 150-156) selects
the native handle type by platform; no member is guarded by NDEBUG — in
particular `line` (line 171) and `file` (line 182) are declared
unconditionally. -/
def mutexMembers (p : Platform) (ndebug : Bool) : List Member :=
  [Member.nativeMutex p, Member.isInitializedMember, Member.lineMember,
   Member.fileMember, Member.mutexInternalMember]

/-- The object size of a Mutex instance as determined by a per-member size
assignment `sz` of the compiler. -/
def objectSize (sz : Member → Nat) (p : Platform) (ndebug : Bool) : Nat :=
  ((mutexMembers p ndebug).map sz).sum

/-- Thread-local control state in the interleaving model: outside any
critical section, blocked inside a Lock call (carrying the diagnostic
context it passed), or inside the critical section. -/
inductive TState where
  | outside
  | waiting (ctx : Option Ctx)
  | inCS
deriving DecidableEq

/-- Update the control state of one thread. -/
def upd (f : Nat → TState) (t : Nat) (v : TState) : Nat → TState :=
  fun u => if u = t then v else f u

/-- A system: one shared Mutex and the control state of every thread. -/
structure Sys where
  m : MutexState
  threads : Nat → TState

/-- Events of the interleaving model. -/
inductive Ev where
  | callLock (t : Nat) (ctx : Option Ctx)
  | acq (t : Nat) (osOk : Bool)
  | tryAcq (t : Nat) (ok : Bool)
  | rel (t : Nat) (osOk : Bool)
deriving DecidableEq

/-- Modelled from the spec: one interleaving step of the system.  A thread
entering Lock first blocks (callLock); the call completes — successfully
or with an OS error — only when the mutex is free (acq); TryLock either
acquires a free mutex (tryAcq true) or returns false immediately on a
held one (tryAcq false); a thread inside the critical section releases
via Unlock (rel), which can itself report an OS error and then leaves the
lock held. -/
inductive Step : Sys → Ev → Sys → Prop where
  | callLock (s : Sys) (t : Nat) (ctx : Option Ctx) :
      s.threads t = TState.outside →
      Step s (Ev.callLock t ctx) ⟨s.m, upd s.threads t (TState.waiting ctx)⟩
  | acqOk (s : Sys) (t : Nat) (ctx : Option Ctx) :
      s.threads t = TState.waiting ctx → s.m.holder = none →
      Step s (Ev.acq t true) ⟨(Lock t true ctx s.m).2, upd s.threads t TState.inCS⟩
  | acqErr (s : Sys) (t : Nat) (ctx : Option Ctx) :
      s.threads t = TState.waiting ctx → s.m.holder = none →
      Step s (Ev.acq t false) ⟨(Lock t false ctx s.m).2, upd s.threads t TState.outside⟩
  | tryOk (s : Sys) (t : Nat) :
      s.threads t = TState.outside → s.m.holder = none →
      Step s (Ev.tryAcq t true) ⟨(TryLock t s.m).2, upd s.threads t TState.inCS⟩
  | tryFail (s : Sys) (t : Nat) :
      s.threads t = TState.outside → s.m.holder ≠ none →
      Step s (Ev.tryAcq t false) ⟨(TryLock t s.m).2, s.threads⟩
  | relOk (s : Sys) (t : Nat) (ctx : Option Ctx) (r : QStatus × MutexState) :
      s.threads t = TState.inCS → Unlock t true ctx s.m = some r →
      Step s (Ev.rel t true) ⟨r.2, upd s.threads t TState.outside⟩
  | relErr (s : Sys) (t : Nat) (ctx : Option Ctx) (r : QStatus × MutexState) :
      s.threads t = TState.inCS → Unlock t false ctx s.m = some r →
      Step s (Ev.rel t false) ⟨r.2, s.threads⟩

/-- The initial system: a freshly constructed Mutex of handle identity `h`
and every thread outside. -/
def initSys (h : Nat) : Sys :=
  ⟨mkMutex h, fun _ => TState.outside⟩

/-- States reachable by interleavings of Lock / TryLock / Unlock calls
that respect the pairing contract (the Step relation only releases from
inside the critical section). -/
inductive Reachable : Sys → Prop where
  | start (h : Nat) : Reachable (initSys h)
  | next {s1 : Sys} {e : Ev} {s2 : Sys} :
      Reachable s1 → Step s1 e s2 → Reachable s2

/-- The coupling invariant: a thread is inside the critical section
exactly when the mutex records it as the holder. -/
def MutexInv (s : Sys) : Prop :=
  ∀ t, s.threads t = TState.inCS ↔ s.m.holder = some t

/-- A concrete two-step run: thread 5 calls Lock on a fresh mutex and then
acquires it. -/
def sysB : Sys :=
  ⟨(initSys 0).m, upd (initSys 0).threads 5 (TState.waiting none)⟩

/-- The state after thread 5 has acquired the lock in `sysB`. -/
def sysC : Sys :=
  ⟨(Lock 5 true none sysB.m).2, upd sysB.threads 5 TState.inCS⟩

/-- Lifecycle phases of a Mutex instance, from the spec state machine:
uninitialized, initialized with an optional holding thread (`ready`), and
destroyed. -/
inductive Phase where
  | uninit
  | ready (holder : Option Nat)
  | destroyed
deriving DecidableEq

/-- Lifecycle events of one instance. -/
inductive LifeEv where
  | evInit
  | evLock (t : Nat)
  | evTryLock (t : Nat)
  | evUnlock (t : Nat)
  | evDestroy
deriving DecidableEq

/-- Modelled from the spec: the per-instance lifecycle state machine
Uninitialized → Initialized(Unlocked) <-> Initialized(LockedByThread T),
with destruction only from the unlocked initialized state. -/
inductive PhaseStep : Phase → LifeEv → Phase → Prop where
  | doInit : PhaseStep Phase.uninit LifeEv.evInit (Phase.ready none)
  | doLock (t : Nat) :
      PhaseStep (Phase.ready none) (LifeEv.evLock t) (Phase.ready (some t))
  | doTryLock (t : Nat) :
      PhaseStep (Phase.ready none) (LifeEv.evTryLock t) (Phase.ready (some t))
  | doUnlock (t : Nat) :
      PhaseStep (Phase.ready (some t)) (LifeEv.evUnlock t) (Phase.ready none)
  | doDestroy : PhaseStep (Phase.ready none) LifeEv.evDestroy Phase.destroyed

lemma lock_true_holder (t : Nat) (ctx : Option Ctx) (s : MutexState) :
    (Lock t true ctx s).2.holder = some t := by
  cases ctx <;> simp [Lock]

lemma lock_false_state (t : Nat) (ctx : Option Ctx) (s : MutexState) :
    (Lock t false ctx s).2 = s := by
  cases ctx <;> simp [Lock]

lemma unlock_true_eq {t : Nat} {ctx : Option Ctx} {s : MutexState}
    {r : QStatus × MutexState} (h : Unlock t true ctx s = some r) :
    s.holder = some t ∧ r = (QStatus.ER_OK, { s with holder := none }) := by
  by_cases hh : s.holder = some t
  · simp [Unlock, hh] at h
    exact ⟨hh, h.symm⟩
  · simp [Unlock, hh] at h

lemma unlock_false_eq {t : Nat} {ctx : Option Ctx} {s : MutexState}
    {r : QStatus × MutexState} (h : Unlock t false ctx s = some r) :
    s.holder = some t ∧ r = (QStatus.ER_OS_ERROR, s) := by
  by_cases hh : s.holder = some t
  · simp [Unlock, hh] at h
    exact ⟨hh, h.symm⟩
  · simp [Unlock, hh] at h

lemma step_preserves_inv {s1 : Sys} {e : Ev} {s2 : Sys}
    (hstep : Step s1 e s2) (hinv : MutexInv s1) : MutexInv s2 := by
  cases hstep with
  | callLock t ctx hout =>
      intro u
      by_cases hu : u = t
      · subst hu
        simp only [upd, if_pos rfl]
        constructor
        · intro hw; cases hw
        · intro hh
          exact absurd (hout.symm.trans ((hinv u).mpr hh)) (by simp)
      · simpa [upd, hu] using hinv u
  | acqOk t ctx hw hfree =>
      intro u
      by_cases hu : u = t
      · subst hu
        simp [upd, lock_true_holder]
      · simp only [upd, if_neg hu, lock_true_holder]
        constructor
        · intro hcs
          exact absurd (hfree.symm.trans ((hinv u).mp hcs)) (by simp)
        · intro hh
          exact absurd (Option.some.inj hh) (fun he => hu he.symm)
  | acqErr t ctx hw hfree =>
      intro u
      rw [lock_false_state]
      by_cases hu : u = t
      · subst hu
        simp only [upd, if_pos rfl, hfree]
        constructor
        · intro hw2; cases hw2
        · intro hh; cases hh
      · simpa [upd, hu] using hinv u
  | tryOk t hout hfree =>
      intro u
      simp only [TryLock, if_pos hfree]
      by_cases hu : u = t
      · subst hu
        simp [upd]
      · simp only [upd, if_neg hu]
        constructor
        · intro hcs
          exact absurd (hfree.symm.trans ((hinv u).mp hcs)) (by simp)
        · intro hh
          exact absurd (Option.some.inj hh) (fun he => hu he.symm)
  | tryFail t hout hheld =>
      intro u
      have : (TryLock t s1.m).2 = s1.m := by simp [TryLock, hheld]
      rw [this]
      exact hinv u
  | relOk t ctx r hcs hun =>
      intro u
      obtain ⟨hh, hr⟩ := unlock_true_eq hun
      subst hr
      by_cases hu : u = t
      · subst hu
        simp only [upd, if_pos rfl]
        constructor
        · intro ho; cases ho
        · intro habs; cases habs
      · simp only [upd, if_neg hu]
        constructor
        · intro hcs2
          have := ((hinv u).mp hcs2).symm.trans hh
          exact absurd (Option.some.inj this) hu
        · intro habs; cases habs
  | relErr t ctx r hcs hun =>
      intro u
      obtain ⟨hh, hr⟩ := unlock_false_eq hun
      subst hr
      exact hinv u

lemma reachable_inv {s : Sys} (h : Reachable s) : MutexInv s := by
  induction h with
  | start h =>
      intro t
      constructor
      · intro habs; cases habs
      · intro habs; cases habs
  | next hr hstep ih => exact step_preserves_inv hstep ih

/-- C1: in every reachable state of the interleaving model of
Lock/TryLock/Unlock calls that respect the pairing contract, at most one
thread is inside the critical section. -/
theorem mutual_exclusion (s : Sys) (hs : Reachable s) (t1 t2 : Nat)
    (h1 : s.threads t1 = TState.inCS) (h2 : s.threads t2 = TState.inCS) :
    t1 = t2 := by
  have hinv := reachable_inv hs
  have e1 := (hinv t1).mp h1
  have e2 := (hinv t2).mp h2
  exact Option.some.inj (e1.symm.trans e2)

lemma reachable_sysC : Reachable sysC :=
  Reachable.next
    (Reachable.next (Reachable.start 0) (Step.callLock (initSys 0) 5 none rfl))
    (Step.acqOk sysB 5 none rfl rfl)

/-- Witness for C1 at the concrete reachable state `sysC`, in which thread
5 is inside the critical section. -/
theorem mutual_exclusion_witness :
    Reachable sysC ∧ sysC.threads 5 = TState.inCS ∧ (5 : Nat) = 5 :=
  ⟨reachable_sysC, rfl, mutual_exclusion sysC reachable_sysC 5 5 rfl rfl⟩

/-- C2: TryLock returns true and makes the caller the holder exactly when
the mutex is free; when the mutex is held by another thread it returns
false with the state (diagnostic fields included) unchanged; and the
state after a successful TryLock is exactly the state after a successful
context-free Lock, so every subsequent Unlock behaves identically. -/
theorem tryLock_spec (t u : Nat) (s : MutexState) :
    ((TryLock t s).1 = true ↔ s.holder = none) ∧
    (s.holder = none → (TryLock t s).2 = { s with holder := some t }) ∧
    (s.holder = some u → u ≠ t → TryLock t s = (false, s)) ∧
    (s.holder ≠ some t →
      ((TryLock t s).1 = false ↔ ∃ v, s.holder = some v ∧ v ≠ t)) ∧
    (s.holder = none → (TryLock t s).2 = (Lock t true none s).2) := by
  refine ⟨?_, ?_, ?_, ?_, ?_⟩
  · by_cases h : s.holder = none <;> simp [TryLock, h]
  · intro h; simp [TryLock, h]
  · intro h hne; simp [TryLock, h]
  · intro hnotself
    by_cases h : s.holder = none
    · simp [TryLock, h]
    · obtain ⟨v, hv⟩ := Option.ne_none_iff_exists.mp h
      refine ⟨fun _ => ⟨v, hv.symm, ?_⟩, fun _ => by simp [TryLock, h]⟩
      intro he
      exact hnotself (hv.symm.trans (congrArg some he))
  · intro h; simp [TryLock, Lock, h]

/-- Witness for C2 at a concrete held mutex. -/
theorem tryLock_spec_witness :
    ((mkMutex 0).holder = none →
        (TryLock 3 (mkMutex 0)).2 = { mkMutex 0 with holder := some 3 }) ∧
    (TryLock 3 { mkMutex 0 with holder := some 7 }).1 = false :=
  ⟨(tryLock_spec 3 7 (mkMutex 0)).2.1,
   by
    have h := ((tryLock_spec 3 7 { mkMutex 0 with holder := some 7 }).2.2.1
      rfl (by decide))
    rw [h]⟩

/-- C3: copy-construction and copy-assignment from any source mutex, in
any lock state, yield a freshly initialized unlocked mutex whose native
handle is the fresh one, distinct from the source handle whenever the
fresh handle identity differs, and the copy is immediately lockable
regardless of the source being held. -/
theorem copy_fresh (source target : MutexState) (h t : Nat) (osOk : Bool)
    (c : Option Ctx) (hfresh : h ≠ source.handle) :
    (copyConstruct source h).holder = none ∧
    (copyConstruct source h).isInitialized = true ∧
    (copyConstruct source h).handle ≠ source.handle ∧
    (TryLock t (copyConstruct source h)).1 = true ∧
    (Lock t osOk c (copyConstruct source h)).2.handle ≠ source.handle ∧
    assignFrom target source h = copyConstruct source h ∧
    (assignFrom target source h).holder = none ∧
    (assignFrom target source h).isInitialized = true := by
  refine ⟨rfl, rfl, hfresh, by simp [TryLock, copyConstruct, mkMutex], ?_, rfl, rfl, rfl⟩
  have : (Lock t osOk c (copyConstruct source h)).2.handle =
      (copyConstruct source h).handle := by
    cases osOk <;> cases c <;> simp [Lock]
  rw [this]
  exact hfresh

/-- Witness for C3: copying a locked source mutex with a distinct fresh
handle. -/
theorem copy_fresh_witness :
    (9 : Nat) ≠ ({ mkMutex 0 with holder := some 4 } : MutexState).handle ∧
    (copyConstruct { mkMutex 0 with holder := some 4 } 9).holder = none ∧
    (copyConstruct { mkMutex 0 with holder := some 4 } 9).handle ≠
      ({ mkMutex 0 with holder := some 4 } : MutexState).handle :=
  ⟨by decide,
   (copy_fresh { mkMutex 0 with holder := some 4 } (mkMutex 1) 9 2 true none
      (by decide)).1,
   (copy_fresh { mkMutex 0 with holder := some 4 } (mkMutex 1) 9 2 true none
      (by decide)).2.2.1⟩

/-- C4: Lock and Unlock each return exactly ER_OK or ER_OS_ERROR — never
any other status code — a successful Lock records the caller as holder,
and on an OS-level failure the state is returned unchanged, so no
partial-lock state is exposed. -/
theorem lock_unlock_status (t : Nat) (osOk : Bool) (c : Option Ctx)
    (s : MutexState) (r : QStatus × MutexState) :
    ((Lock t osOk c s).1 = QStatus.ER_OK ∨
      (Lock t osOk c s).1 = QStatus.ER_OS_ERROR) ∧
    ((Lock t osOk c s).1 = QStatus.ER_OK → (Lock t osOk c s).2.holder = some t) ∧
    ((Lock t osOk c s).1 = QStatus.ER_OS_ERROR → (Lock t osOk c s).2 = s) ∧
    (Unlock t osOk c s = some r →
      (r.1 = QStatus.ER_OK ∨ r.1 = QStatus.ER_OS_ERROR) ∧
      (r.1 = QStatus.ER_OS_ERROR → r.2 = s)) := by
  refine ⟨?_, ?_, ?_, ?_⟩
  · cases osOk <;> cases c <;> simp [Lock]
  · intro hok
    cases osOk
    · simp [Lock] at hok
    · exact lock_true_holder t c s
  · intro herr
    cases osOk
    · exact lock_false_state t c s
    · cases c <;> simp [Lock] at herr
  · intro hr
    cases osOk
    · obtain ⟨hh, he⟩ := unlock_false_eq hr
      subst he
      exact ⟨Or.inr rfl, fun _ => rfl⟩
    · obtain ⟨hh, he⟩ := unlock_true_eq hr
      subst he
      refine ⟨Or.inl rfl, ?_⟩
      intro habs; cases habs

/-- Witness for C4 at a concrete failing Unlock call. -/
theorem lock_unlock_status_witness :
    Unlock 4 false none { mkMutex 0 with holder := some 4 } =
      some (QStatus.ER_OS_ERROR, { mkMutex 0 with holder := some 4 }) ∧
    (QStatus.ER_OS_ERROR = QStatus.ER_OK ∨
      QStatus.ER_OS_ERROR = QStatus.ER_OS_ERROR) :=
  ⟨by decide,
   ((lock_unlock_status 4 false none { mkMutex 0 with holder := some 4 }
      (QStatus.ER_OS_ERROR, { mkMutex 0 with holder := some 4 })).2.2.2
      (by decide)).1⟩

/-- C5: when the calling thread holds the lock, Unlock is fully defined
(the contract-violation branch is unreachable) and returns a status; a
call by any non-holding thread hits the contract-violation branch, which
never produces a typed status value. -/
theorem unlock_precondition (t : Nat) (osOk : Bool) (c : Option Ctx)
    (s : MutexState) :
    (s.holder = some t →
      Unlock t osOk c s =
        some (if osOk then (QStatus.ER_OK, { s with holder := none })
          else (QStatus.ER_OS_ERROR, s))) ∧
    (s.holder ≠ some t → Unlock t osOk c s = none) := by
  constructor
  · intro hh
    cases osOk <;> simp [Unlock, hh]
  · intro hh
    simp [Unlock, hh]

/-- Witness for C5: the holder thread 2 unlocks successfully; thread 3,
which does not hold the lock, hits the undefined branch. -/
theorem unlock_precondition_witness :
    Unlock 2 true none { mkMutex 0 with holder := some 2 } =
      some (QStatus.ER_OK, { mkMutex 0 with holder := none }) ∧
    Unlock 3 true none { mkMutex 0 with holder := some 2 } = none := by
  constructor
  · have h := (unlock_precondition 2 true none
      { mkMutex 0 with holder := some 2 }).1 rfl
    simpa using h
  · exact (unlock_precondition 3 true none
      { mkMutex 0 with holder := some 2 }).2 (by decide)

/-- C6: the lifecycle state machine is an invariant of every operation:
the only transition into LockedByThread t starts at Initialized(Unlocked)
and is a Lock or TryLock by t, the only transition out of LockedByThread
t is an Unlock by t and returns to Initialized(Unlocked), destruction
happens only from the unlocked initialized state, the isInitialized flag
is set exactly when the native handle was successfully constructed, and
that flag guards the destructor and the lock/unlock paths against
operating on an uninitialized handle. -/
theorem lifecycle_invariant (p p2 : Phase) (e : LifeEv) (t : Nat) (ok : Bool)
    (hn : Nat) (osOk : Bool) (c : Option Ctx) (s : MutexState) :
    (PhaseStep p e (Phase.ready (some t)) →
      p = Phase.ready none ∧ (e = LifeEv.evLock t ∨ e = LifeEv.evTryLock t)) ∧
    (PhaseStep (Phase.ready (some t)) e p2 →
      p2 = Phase.ready none ∧ e = LifeEv.evUnlock t) ∧
    (PhaseStep p e Phase.destroyed →
      p = Phase.ready none ∧ e = LifeEv.evDestroy) ∧
    (Init ok hn).isInitialized = ok ∧
    (s.isInitialized = false →
      destructor s = some false ∧ LockGuarded t osOk c s = none ∧
      UnlockGuarded t osOk c s = none) ∧
    (s.isInitialized = true → s.holder = none → destructor s = some true) ∧
    (s.isInitialized = true → s.holder ≠ none → destructor s = none) := by
  refine ⟨?_, ?_, ?_, ?_, ?_, ?_, ?_⟩
  · intro hst
    cases hst with
    | doLock t => exact ⟨rfl, Or.inl rfl⟩
    | doTryLock t => exact ⟨rfl, Or.inr rfl⟩
  · intro hst
    cases hst with
    | doUnlock t => exact ⟨rfl, rfl⟩
  · intro hst
    cases hst with
    | doDestroy => exact ⟨rfl, rfl⟩
  · cases ok <;> simp [Init, mkMutex]
  · intro hflag
    exact ⟨by simp [destructor, hflag], by simp [LockGuarded, hflag],
      by simp [UnlockGuarded, hflag]⟩
  · intro hflag hfree
    simp [destructor, hflag, hfree]
  · intro hflag hheld
    simp [destructor, hflag, hheld]

/-- Witness for C6: the locked phase is entered by a concrete Lock event,
and a concrete uninitialized instance is rejected by the guarded lock
path. -/
theorem lifecycle_invariant_witness :
    PhaseStep (Phase.ready none) (LifeEv.evLock 3) (Phase.ready (some 3)) ∧
    (Phase.ready none = Phase.ready none ∧
      (LifeEv.evLock 3 = LifeEv.evLock 3 ∨ LifeEv.evLock 3 = LifeEv.evTryLock 3)) ∧
    LockGuarded 3 true none (Init false 0) = none :=
  ⟨PhaseStep.doLock 3,
   (lifecycle_invariant (Phase.ready none) Phase.uninit (LifeEv.evLock 3) 3
      true 0 true none (Init false 0)).1 (PhaseStep.doLock 3),
   ((lifecycle_invariant (Phase.ready none) Phase.uninit (LifeEv.evLock 3) 3
      true 0 true none (Init false 0)).2.2.2.2.1 (by decide)).2.1⟩

/-- C7: AssertOwnedByCurrentThread completes normally, returning no value,
when called by the thread holding the lock, and signals the fatal
assertion (never a returned value) when called by a thread that does not
hold the lock while another thread holds it. -/
theorem assertOwned_spec (t u : Nat) (s : MutexState) :
    (s.holder = some t → AssertOwnedByCurrentThread t s = some ()) ∧
    (s.holder = some u → u ≠ t → AssertOwnedByCurrentThread t s = none) := by
  constructor
  · intro h
    simp [AssertOwnedByCurrentThread, h]
  · intro h hne
    have hno : s.holder ≠ some t := by
      rw [h]
      exact fun he => hne (Option.some.inj he)
    simp [AssertOwnedByCurrentThread, hno]

/-- Witness for C7: thread 2 holds the lock; the assertion passes for
thread 2 and faults for thread 5. -/
theorem assertOwned_spec_witness :
    ({ mkMutex 0 with holder := some 2 } : MutexState).holder = some 2 ∧
    AssertOwnedByCurrentThread 2 { mkMutex 0 with holder := some 2 } = some () ∧
    AssertOwnedByCurrentThread 5 { mkMutex 0 with holder := some 2 } = none :=
  ⟨rfl,
   (assertOwned_spec 2 2 { mkMutex 0 with holder := some 2 }).1 rfl,
   (assertOwned_spec 5 2 { mkMutex 0 with holder := some 2 }).2 rfl (by decide)⟩

/-- C8: in the interleaving model, a step that changes the diagnostic
file/line fields can only be a successful acquisition: the lock was free
before, it is held afterwards by the acquiring thread, and the new
diagnostic fields are exactly the context that this thread — the new
holder — passed to Lock; a blocked or failed acquisition never modifies
them. -/
theorem diagnostics_only_on_acquire (s1 : Sys) (e : Ev) (s2 : Sys)
    (hstep : Step s1 e s2)
    (hdiag : s2.m.file ≠ s1.m.file ∨ s2.m.line ≠ s1.m.line) :
    ∃ t c, e = Ev.acq t true ∧ s1.m.holder = none ∧ s2.m.holder = some t ∧
      s1.threads t = TState.waiting (some c) ∧
      s2.m.file = some c.file ∧ s2.m.line = c.line := by
  cases hstep with
  | callLock t ctx hout =>
      rcases hdiag with h | h <;> exact absurd rfl h
  | acqOk t ctx hw hfree =>
      cases ctx with
      | none =>
          rcases hdiag with h | h <;> simp [Lock] at h
      | some c =>
          exact ⟨t, c, rfl, hfree, by simp [Lock], hw, by simp [Lock],
            by simp [Lock]⟩
  | acqErr t ctx hw hfree =>
      rcases hdiag with h | h <;> rw [lock_false_state] at h <;>
        exact absurd rfl h
  | tryOk t hout hfree =>
      rcases hdiag with h | h <;> simp [TryLock, hfree] at h
  | tryFail t hout hheld =>
      have he : (TryLock t s1.m).2 = s1.m := by simp [TryLock, hheld]
      rcases hdiag with h | h <;> rw [he] at h <;> exact absurd rfl h
  | relOk t ctx r hcs hun =>
      obtain ⟨hh, hr⟩ := unlock_true_eq hun
      subst hr
      rcases hdiag with h | h <;> simp at h
  | relErr t ctx r hcs hun =>
      obtain ⟨hh, hr⟩ := unlock_false_eq hun
      subst hr
      rcases hdiag with h | h <;> exact absurd rfl h

/-- Witness for C8: a concrete acquisition step by thread 5 with context
("Mutex.cc", 7) changes the diagnostic fields, and the theorem identifies
it. -/
theorem diagnostics_only_on_acquire_witness :
    Step
      ⟨mkMutex 0, upd (fun _ => TState.outside) 5
        (TState.waiting (some ⟨"Mutex.cc", 7⟩))⟩
      (Ev.acq 5 true)
      ⟨(Lock 5 true (some ⟨"Mutex.cc", 7⟩) (mkMutex 0)).2,
        upd (upd (fun _ => TState.outside) 5
          (TState.waiting (some ⟨"Mutex.cc", 7⟩))) 5 TState.inCS⟩ ∧
    (Lock 5 true (some ⟨"Mutex.cc", 7⟩) (mkMutex 0)).2.file ≠ (mkMutex 0).file ∧
    ∃ t c, Ev.acq 5 true = Ev.acq t true ∧
      (mkMutex 0).holder = none ∧
      (Lock 5 true (some ⟨"Mutex.cc", 7⟩) (mkMutex 0)).2.holder = some t ∧
      upd (fun _ => TState.outside) 5 (TState.waiting (some ⟨"Mutex.cc", 7⟩)) t =
        TState.waiting (some c) ∧
      (Lock 5 true (some ⟨"Mutex.cc", 7⟩) (mkMutex 0)).2.file = some c.file ∧
      (Lock 5 true (some ⟨"Mutex.cc", 7⟩) (mkMutex 0)).2.line = c.line :=
  ⟨Step.acqOk ⟨mkMutex 0, upd (fun _ => TState.outside) 5
      (TState.waiting (some ⟨"Mutex.cc", 7⟩))⟩ 5 (some ⟨"Mutex.cc", 7⟩) rfl rfl,
   by decide,
   diagnostics_only_on_acquire
     ⟨mkMutex 0, upd (fun _ => TState.outside) 5
       (TState.waiting (some ⟨"Mutex.cc", 7⟩))⟩
     (Ev.acq 5 true)
     ⟨(Lock 5 true (some ⟨"Mutex.cc", 7⟩) (mkMutex 0)).2,
       upd (upd (fun _ => TState.outside) 5
         (TState.waiting (some ⟨"Mutex.cc", 7⟩))) 5 TState.inCS⟩
     (Step.acqOk ⟨mkMutex 0, upd (fun _ => TState.outside) 5
       (TState.waiting (some ⟨"Mutex.cc", 7⟩))⟩ 5 (some ⟨"Mutex.cc", 7⟩) rfl rfl)
     (Or.inl (by decide))⟩

/-- C9: the declared member list of class Mutex, and therefore the object
size computed from any per-member size assignment, does not depend on
the NDEBUG build configuration; the diagnostic members `line` and `file`
are present in every configuration. -/
theorem object_size_stable (p : Platform) (sz : Member → Nat)
    (ndebug1 ndebug2 : Bool) :
    objectSize sz p ndebug1 = objectSize sz p ndebug2 ∧
    mutexMembers p ndebug1 = mutexMembers p ndebug2 ∧
    Member.lineMember ∈ mutexMembers p ndebug1 ∧
    Member.fileMember ∈ mutexMembers p ndebug1 := by
  refine ⟨rfl, rfl, ?_, ?_⟩ <;> simp [mutexMembers]

/-- C10: the diagnostic overloads of Lock and Unlock return the same
status and produce the same holder as the context-free overloads; in a
release build MUTEX_CONTEXT expands to nothing, selecting exactly the
context-free call; and no other public operation observes the diagnostic
fields — TryLock, Unlock and AssertOwnedByCurrentThread give identical
observable results on any two states agreeing on the holder. -/
theorem overload_equivalence (t : Nat) (osOk : Bool) (c : Option Ctx)
    (f : String) (l : Nat) (s s1 s2 : MutexState)
    (hh : s1.holder = s2.holder) :
    Lock t osOk (MUTEX_CONTEXT true f l) s = Lock t osOk none s ∧
    (Lock t osOk c s).1 = (Lock t osOk none s).1 ∧
    (Lock t osOk c s).2.holder = (Lock t osOk none s).2.holder ∧
    Unlock t osOk (MUTEX_CONTEXT true f l) s = Unlock t osOk none s ∧
    Unlock t osOk c s = Unlock t osOk none s ∧
    (TryLock t s1).1 = (TryLock t s2).1 ∧
    (TryLock t s1).2.holder = (TryLock t s2).2.holder ∧
    Option.map (fun r => (r.1, r.2.holder)) (Unlock t osOk c s1) =
      Option.map (fun r => (r.1, r.2.holder)) (Unlock t osOk c s2) ∧
    AssertOwnedByCurrentThread t s1 = AssertOwnedByCurrentThread t s2 := by
  refine ⟨rfl, ?_, ?_, rfl, rfl, ?_, ?_, ?_, ?_⟩
  · cases osOk <;> cases c <;> simp [Lock]
  · cases osOk <;> cases c <;> simp [Lock]
  · by_cases h1 : s1.holder = none
    · have h2 : s2.holder = none := hh ▸ h1
      simp [TryLock, h1, h2]
    · have h2 : s2.holder ≠ none := hh ▸ h1
      simp [TryLock, h1, h2]
  · by_cases h1 : s1.holder = none
    · have h2 : s2.holder = none := hh ▸ h1
      simp [TryLock, h1, h2]
    · have h2 : s2.holder ≠ none := hh ▸ h1
      simp [TryLock, h1, h2, hh]
  · by_cases h1 : s1.holder = some t
    · have h2 : s2.holder = some t := hh ▸ h1
      cases osOk <;> simp [Unlock, h1, h2, hh]
    · have h2 : s2.holder ≠ some t := hh ▸ h1
      simp [Unlock, h1, h2]
  · by_cases h1 : s1.holder = some t
    · have h2 : s2.holder = some t := hh ▸ h1
      simp [AssertOwnedByCurrentThread, h1, h2]
    · have h2 : s2.holder ≠ some t := hh ▸ h1
      simp [AssertOwnedByCurrentThread, h1, h2]

/-- Witness for C10: two concrete states with equal holders. -/
theorem overload_equivalence_witness :
    (mkMutex 0).holder = (mkMutex 1).holder ∧
    Lock 2 true (MUTEX_CONTEXT true "a.cpp" 9) (mkMutex 0) =
      Lock 2 true none (mkMutex 0) :=
  ⟨rfl,
   (overload_equivalence 2 true none "a.cpp" 9 (mkMutex 0) (mkMutex 0)
      (mkMutex 1) rfl).1⟩

end AJ
